import Mathlib

/-!
Shallow embedding of the annotation tool in `src/.github/power/streamlit_app.py`:
the case loader (`load_cases`, `make_case_id`, `load_tutorial`) and the
annotation store (`load_existing_annotations`, the row-building upsert).

Python values produced by `json.loads` are modelled by the inductive type
`Json` below; Python dicts are association lists whose keys are kept unique
(first-occurrence position, last value wins — the semantics of repeated
`d[k] = v`).  Machine-level behaviour of CPython that the code relies on
(`str()` rendering, `str.strip()`, truthiness, `hashlib.md5`, UTF-8 encoding,
decimal rendering of integers) is embedded explicitly.  Modelling
restrictions, stated where they occur: JSON numbers are restricted to
integers, and `repr` of strings covers the ASCII escape rules.
-/

/-- A JSON value as produced by Python's `json.loads`.  `null` is Python's
`None`.  Objects are insertion-ordered association lists with unique keys,
mirroring Python dicts.  Modelling restriction: numbers are integers only
(the repository's data and the claims never involve fractional numbers). -/
inductive Json where
  | null : Json
  | bool : Bool → Json
  | num : Int → Json
  | str : String → Json
  | arr : List Json → Json
  | obj : List (String × Json) → Json
deriving Inhabited

/-- Python `d.get(k)` on an association-list dict: first entry with key `k`. -/
def getKv (kvs : List (String × Json)) (k : String) : Option Json :=
  match kvs with
  | [] => none
  | (k', v) :: rest => if k' = k then some v else getKv rest k

/-- Python `d[k] = v`: update the value in place if the key exists
(keeping its position), otherwise append the new pair. -/
def setKv (kvs : List (String × Json)) (k : String) (v : Json) : List (String × Json) :=
  match kvs with
  | [] => [(k, v)]
  | (k', v') :: rest => if k' = k then (k', v) :: rest else (k', v') :: setKv rest k v

/-- Python truthiness of a JSON value: `None`, `False`, `0`, `""`, `[]`,
and the empty dict are falsy; everything else is truthy. -/
def pyTruthy : Json → Bool
  | .null => false
  | .bool b => b
  | .num n => n != 0
  | .str s => s != ""
  | .arr xs => !xs.isEmpty
  | .obj kvs => !kvs.isEmpty

/-- The ASCII whitespace characters removed by Python `str.strip()`. -/
def isPySpace (c : Char) : Bool :=
  c = ' ' || c = '\t' || c = '\n' || c = '\r' || c = '\x0b' || c = '\x0c'

/-- Python `str.strip()` on a character list: drop whitespace from both ends. -/
def pyStripL (l : List Char) : List Char :=
  ((l.dropWhile isPySpace).reverse.dropWhile isPySpace).reverse

/-- Python `str.strip()`. -/
def pyStrip (s : String) : String := ⟨pyStripL s.data⟩

/-- The character for a decimal digit value. -/
def digitChar (n : Nat) : Char := "0123456789".toList.getD n '0'

/-- Decimal digits, most significant first, with structural fuel (the fuel
dominates the digit count whenever it exceeds the number). -/
def natDigitsAux (fuel n : Nat) : List Char :=
  match fuel with
  | 0 => []
  | fuel + 1 =>
    if n < 10 then [digitChar n]
    else natDigitsAux fuel (n / 10) ++ [digitChar (n % 10)]

/-- Decimal digits of a natural number, most significant first:
the rendering used by Python `str(int)` for non-negative integers. -/
def natDigitsL (n : Nat) : List Char := natDigitsAux (n + 1) n

/-- Python `str(n)` for a natural number. -/
def natStr (n : Nat) : String := ⟨natDigitsL n⟩

/-- Python `str(n)` for an integer. -/
def intStr (n : Int) : String :=
  if n < 0 then "-" ++ natStr n.natAbs else natStr n.natAbs

/-- Hexadecimal digit character (lowercase). -/
def hexChar (n : Nat) : Char := "0123456789abcdef".toList.getD n '0'

/-- Two lowercase hex digits of a byte. -/
def byteHex (n : Nat) : List Char := [hexChar (n / 16), hexChar (n % 16)]

/-- One escaped character of Python `repr` of a string, given the chosen
quote character `q`: backslash, the quote, newline, carriage return and tab
get two-character escapes; other control characters get `\xHH`.
Modelling restriction: non-printable characters above ASCII are kept as-is. -/
def pyReprCharEsc (q : Char) (c : Char) : List Char :=
  if c = '\\' then ['\\', '\\']
  else if c = q then ['\\', q]
  else if c = '\n' then ['\\', 'n']
  else if c = '\r' then ['\\', 'r']
  else if c = '\t' then ['\\', 't']
  else if c.toNat < 32 || c.toNat = 127 then '\\' :: 'x' :: byteHex c.toNat
  else [c]

/-- Python `repr` of a string: single-quoted, unless the string contains a
single quote and no double quote, in which case it is double-quoted. -/
def pyReprStr (s : String) : String :=
  let q : Char := if s.data.contains '\x27' && !(s.data.contains '\x22') then '\x22' else '\x27'
  ⟨q :: ((s.data.map (pyReprCharEsc q)).flatten ++ [q])⟩

/-- Python `repr()` of a JSON value (used by `str()` for containers):
`None`, `True`/`False`, decimal integers, quoted strings, and
insertion-ordered `[...]` / dict displays. -/
def pyRepr : Json → String
  | .null => "None"
  | .bool true => "True"
  | .bool false => "False"
  | .num n => intStr n
  | .str s => pyReprStr s
  | .arr xs =>
      "[" ++ String.intercalate ", " (xs.attach.map (fun x => pyRepr x.1)) ++ "]"
  | .obj kvs =>
      "\x7b" ++ String.intercalate ", "
        (kvs.attach.map (fun kv => pyReprStr kv.1.1 ++ ": " ++ pyRepr kv.1.2)) ++ "\x7d"
termination_by j => sizeOf j
decreasing_by
  · have := List.sizeOf_lt_of_mem x.2
    simp only [Json.arr.sizeOf_spec]
    omega
  · have h1 := List.sizeOf_lt_of_mem kv.2
    have h2 : sizeOf kv.1.2 < sizeOf kv.1 := by
      obtain ⟨a, b⟩ := kv.1
      simp
    simp only [Json.obj.sizeOf_spec]
    omega

/-- Python `str()` of a JSON value: strings render as themselves,
everything else as its `repr`. -/
def pyStr : Json → String
  | .str s => s
  | v => pyRepr v

/-- Python `str()` of an optional value (`none` is Python `None`). -/
def pyStrOpt : Option Json → String
  | none => "None"
  | some v => pyStr v

/-- UTF-8 encoding of one character (`str.encode("utf-8")`). -/
def utf8EncodeChar (c : Char) : List Nat :=
  let n := c.toNat
  if n < 128 then [n]
  else if n < 2048 then [192 + n / 64, 128 + n % 64]
  else if n < 65536 then [224 + n / 4096, 128 + n / 64 % 64, 128 + n % 64]
  else [240 + n / 262144, 128 + n / 4096 % 64, 128 + n / 64 % 64, 128 + n % 64]

/-- UTF-8 bytes of a string (`s.encode("utf-8")`), as naturals below 256. -/
def utf8Bytes (s : String) : List Nat := (s.data.map utf8EncodeChar).flatten

/-- The 64 MD5 sine-derived round constants (RFC 1321). -/
def md5K : List Nat := [
  3614090360, 3905402710, 606105819, 3250441966,
  4118548399, 1200080426, 2821735955, 4249261313,
  1770035416, 2336552879, 4294925233, 2304563134,
  1804603682, 4254626195, 2792965006, 1236535329,
  4129170786, 3225465664, 643717713, 3921069994,
  3593408605, 38016083, 3634488961, 3889429448,
  568446438, 3275163606, 4107603335, 1163531501,
  2850285829, 4243563512, 1735328473, 2368359562,
  4294588738, 2272392833, 1839030562, 4259657740,
  2763975236, 1272893353, 4139469664, 3200236656,
  681279174, 3936430074, 3572445317, 76029189,
  3654602809, 3873151461, 530742520, 3299628645,
  4096336452, 1126891415, 2878612391, 4237533241,
  1700485571, 2399980690, 4293915773, 2240044497,
  1873313359, 4264355552, 2734768916, 1309151649,
  4149444226, 3174756917, 718787259, 3951481745]

/-- The 64 MD5 per-round left-rotation amounts (RFC 1321). -/
def md5S : List Nat := [
  7, 12, 17, 22, 7, 12, 17, 22, 7, 12, 17, 22, 7, 12, 17, 22,
  5, 9, 14, 20, 5, 9, 14, 20, 5, 9, 14, 20, 5, 9, 14, 20,
  4, 11, 16, 23, 4, 11, 16, 23, 4, 11, 16, 23, 4, 11, 16, 23,
  6, 10, 15, 21, 6, 10, 15, 21, 6, 10, 15, 21, 6, 10, 15, 21]

/-- Left rotation of a 32-bit word (value below `2 ^ 32`). -/
def rotl32 (x s : Nat) : Nat :=
  ((x % 2 ^ (32 - s)) * 2 ^ s + x / 2 ^ (32 - s)) % 4294967296

/-- One MD5 round: `M` are the block's sixteen little-endian words. -/
def md5Round (M : List Nat) (st : Nat × Nat × Nat × Nat) (i : Nat) :
    Nat × Nat × Nat × Nat :=
  let (a, b, c, d) := st
  let f :=
    if i < 16 then (b &&& c) ||| ((4294967295 ^^^ b) &&& d)
    else if i < 32 then (d &&& b) ||| ((4294967295 ^^^ d) &&& c)
    else if i < 48 then b ^^^ c ^^^ d
    else c ^^^ (b ||| (4294967295 ^^^ d))
  let g :=
    if i < 16 then i
    else if i < 32 then (5 * i + 1) % 16
    else if i < 48 then (3 * i + 5) % 16
    else (7 * i) % 16
  let tmp := (a + f + md5K.getD i 0 + M.getD g 0) % 4294967296
  (d, (b + rotl32 tmp (md5S.getD i 0)) % 4294967296, b, c)

/-- MD5 compression of one 64-byte block into the running state. -/
def md5Block (st0 : Nat × Nat × Nat × Nat) (block : List Nat) :
    Nat × Nat × Nat × Nat :=
  let M := (List.range 16).map (fun j =>
    block.getD (4 * j) 0 + 256 * block.getD (4 * j + 1) 0 +
      65536 * block.getD (4 * j + 2) 0 + 16777216 * block.getD (4 * j + 3) 0)
  let st := (List.range 64).foldl (md5Round M) st0
  ((st0.1 + st.1) % 4294967296, (st0.2.1 + st.2.1) % 4294967296,
   (st0.2.2.1 + st.2.2.1) % 4294967296, (st0.2.2.2 + st.2.2.2) % 4294967296)

/-- `k` little-endian bytes of a natural number. -/
def leBytes (n k : Nat) : List Nat :=
  match k with
  | 0 => []
  | k + 1 => n % 256 :: leBytes (n / 256) k

/-- MD5 padding: a `0x80` byte, zeros to 56 mod 64, then the bit length
as eight little-endian bytes. -/
def md5Pad (msg : List Nat) : List Nat :=
  let len := msg.length
  let zeros := (56 - (len + 1) % 64 + 64) % 64
  msg ++ [128] ++ List.replicate zeros 0 ++ leBytes ((8 * len) % 2 ^ 64) 8

/-- Split a byte list into 64-byte blocks, with structural fuel (any fuel
beyond the length works, since each step drops at least one byte). -/
def chunks64Aux (fuel : Nat) (l : List Nat) : List (List Nat) :=
  match fuel with
  | 0 => []
  | fuel + 1 =>
    match l with
    | [] => []
    | x :: xs => ((x :: xs).take 64) :: chunks64Aux fuel ((x :: xs).drop 64)

/-- Split a byte list into 64-byte blocks. -/
def chunks64 (l : List Nat) : List (List Nat) := chunks64Aux (l.length + 1) l

/-- The sixteen digest bytes of the MD5 of a byte message. -/
def md5Bytes (msg : List Nat) : List Nat :=
  let st := (chunks64 (md5Pad msg)).foldl md5Block
    (1732584193, 4023233417, 2562383102, 271733878)
  leBytes st.1 4 ++ leBytes st.2.1 4 ++ leBytes st.2.2.1 4 ++ leBytes st.2.2.2 4

/-- `hashlib.md5(s.encode("utf-8")).hexdigest()`: lowercase hex digest. -/
def md5Hex (s : String) : String := ⟨(md5Bytes (utf8Bytes s)).map byteHex |>.flatten⟩

/-- Hexadecimal digit value of a character, if any. -/
def hexVal (c : Char) : Option Nat :=
  if '0' ≤ c ∧ c ≤ '9' then some (c.toNat - 48)
  else if 'a' ≤ c ∧ c ≤ 'f' then some (c.toNat - 87)
  else if 'A' ≤ c ∧ c ≤ 'F' then some (c.toNat - 55)
  else none

/-- Decimal digit value of a character, if any. -/
def digitVal (c : Char) : Option Nat :=
  if '0' ≤ c ∧ c ≤ '9' then some (c.toNat - 48) else none

/-- Longest decimal-digit run at the head of the input. -/
def takeDigits : List Char → (List Nat × List Char)
  | [] => ([], [])
  | c :: rest =>
    match digitVal c with
    | some d => let (ds, r) := takeDigits rest; (d :: ds, r)
    | none => ([], c :: rest)

/-- Body of a JSON string after the opening quote: standard escapes and
`\uXXXX` (modelling restriction: a `\uXXXX` surrogate half is not combined
with its pair).  Returns the content and the input after the closing quote. -/
def jsonStrBody (cs : List Char) (acc : List Char) : Option (String × List Char) :=
  match cs with
  | [] => none
  | c :: rest =>
    if c = '\x22' then some (⟨acc.reverse⟩, rest)
    else if c = '\\' then
      match rest with
      | [] => none
      | e :: rest2 =>
        if e = '\x22' then jsonStrBody rest2 ('\x22' :: acc)
        else if e = '\\' then jsonStrBody rest2 ('\\' :: acc)
        else if e = '/' then jsonStrBody rest2 ('/' :: acc)
        else if e = 'n' then jsonStrBody rest2 ('\n' :: acc)
        else if e = 't' then jsonStrBody rest2 ('\t' :: acc)
        else if e = 'r' then jsonStrBody rest2 ('\r' :: acc)
        else if e = 'b' then jsonStrBody rest2 ('\x08' :: acc)
        else if e = 'f' then jsonStrBody rest2 ('\x0c' :: acc)
        else if e = 'u' then
          match rest2 with
          | h1 :: h2 :: h3 :: h4 :: rest3 =>
            match hexVal h1, hexVal h2, hexVal h3, hexVal h4 with
            | some a, some b, some c', some d =>
              jsonStrBody rest3 (Char.ofNat (4096 * a + 256 * b + 16 * c' + d) :: acc)
            | _, _, _, _ => none
          | _ => none
        else none
    else jsonStrBody rest (c :: acc)

/-- A JSON number (integer grammar: optional minus, no leading zeros).
Modelling restriction: fractional and exponent forms are a parse failure
here instead of producing a float. -/
def parseNum (cs : List Char) : Option (Int × List Char) :=
  let (neg, cs1) :=
    match cs with
    | '-' :: rest => (true, rest)
    | _ => (false, cs)
  match cs1 with
  | [] => none
  | c :: _ =>
    match digitVal c with
    | none => none
    | some _ =>
      let (ds, rest) := takeDigits cs1
      if ds.length > 1 ∧ ds.headD 0 = 0 then none
      else
        match rest with
        | '.' :: _ => none
        | 'e' :: _ => none
        | 'E' :: _ => none
        | _ =>
          let v : Int := Int.ofNat (ds.foldl (fun a d => 10 * a + d) 0)
          some (if neg then -v else v, rest)

/-- The whitespace skipped between JSON tokens. -/
def isJsonWs (c : Char) : Bool := c = ' ' || c = '\t' || c = '\n' || c = '\r'

/-- Skip JSON inter-token whitespace. -/
def skipWs (cs : List Char) : List Char := cs.dropWhile isJsonWs

mutual

/-- Recursive-descent parse of one JSON value; the fuel dominates the
number of values and members, so `length + 1` fuel always suffices. -/
def parseVal (fuel : Nat) (cs : List Char) : Option (Json × List Char) :=
  match fuel with
  | 0 => none
  | fuel + 1 =>
    match skipWs cs with
    | [] => none
    | c :: rest =>
      if c = '\x7b' then
        match skipWs rest with
        | '\x7d' :: r => some (Json.obj [], r)
        | cs' => parseMembers fuel cs' []
      else if c = '[' then
        match skipWs rest with
        | ']' :: r => some (Json.arr [], r)
        | cs' => parseItems fuel cs' []
      else if c = '\x22' then (jsonStrBody rest []).map (fun p => (Json.str p.1, p.2))
      else if c = 't' then
        match rest with
        | 'r' :: 'u' :: 'e' :: r => some (Json.bool true, r)
        | _ => none
      else if c = 'f' then
        match rest with
        | 'a' :: 'l' :: 's' :: 'e' :: r => some (Json.bool false, r)
        | _ => none
      else if c = 'n' then
        match rest with
        | 'u' :: 'l' :: 'l' :: r => some (Json.null, r)
        | _ => none
      else (parseNum (c :: rest)).map (fun p => (Json.num p.1, p.2))

/-- Members of a JSON object after the opening brace (non-empty case).
Repeated keys follow Python dict assignment: position of the first
occurrence, value of the last. -/
def parseMembers (fuel : Nat) (cs : List Char) (acc : List (String × Json)) :
    Option (Json × List Char) :=
  match fuel with
  | 0 => none
  | fuel + 1 =>
    match skipWs cs with
    | '\x22' :: rest =>
      match jsonStrBody rest [] with
      | none => none
      | some (k, r1) =>
        match skipWs r1 with
        | ':' :: r2 =>
          match parseVal fuel r2 with
          | none => none
          | some (v, r3) =>
            let acc' := setKv acc k v
            match skipWs r3 with
            | ',' :: r4 => parseMembers fuel r4 acc'
            | '\x7d' :: r4 => some (Json.obj acc', r4)
            | _ => none
        | _ => none
    | _ => none

/-- Items of a JSON array after the opening bracket (non-empty case). -/
def parseItems (fuel : Nat) (cs : List Char) (acc : List Json) :
    Option (Json × List Char) :=
  match fuel with
  | 0 => none
  | fuel + 1 =>
    match parseVal fuel cs with
    | none => none
    | some (v, r) =>
      match skipWs r with
      | ',' :: r2 => parseItems fuel r2 (acc ++ [v])
      | ']' :: r2 => some (Json.arr (acc ++ [v]), r2)
      | _ => none

end

/-- Python `json.loads`: parse a complete JSON document; `none` models a
raised `json.JSONDecodeError` (including trailing non-whitespace). -/
def parseJson (s : String) : Option Json :=
  match parseVal (s.length + 1) s.data with
  | some (v, rest) => if (skipWs rest).isEmpty then some v else none
  | none => none

/-- The composite key `base` of `make_case_id` (source lines 31-37):
`meta` is `c.get("meta", {})` if it is a dict else `{}`; `scenario_id` is
`meta["scenario"]["id"]` when `meta["scenario"]` is a dict, else Python
`None`; `rel`, `n1`, `n2` default to `"Unknown"`, `""`, `""`; the f-string
`f"{scenario_id}|{rel}|{n1}|{n2}"` is stripped. -/
def caseBase (c : List (String × Json)) : String :=
  let meta : List (String × Json) :=
    match getKv c "meta" with
    | some (.obj kvs) => kvs
    | _ => []
  let scenario_id : Option Json :=
    match getKv meta "scenario" with
    | some (.obj skvs) => getKv skvs "id"
    | _ => none
  let rel : Json := (getKv meta "relationship_type").getD (.str "Unknown")
  let n1 : Json := (getKv meta "name1").getD (.str "")
  let n2 : Json := (getKv meta "name2").getD (.str "")
  pyStrip (pyStrOpt scenario_id ++ "|" ++ pyStr rel ++ "|" ++ pyStr n1 ++ "|" ++ pyStr n2)

/-- `make_case_id` (source lines 29-43): hash id `case_` + first ten hex
characters of the MD5 of the composite key when that key is truthy and not
the degenerate `"None|Unknown||"`; otherwise the index fallback `idx_<idx>`. -/
def make_case_id (c : List (String × Json)) (idx : Nat) : String :=
  let base := caseBase c
  if base ≠ "" ∧ base ≠ "None|Unknown||" then
    "case_" ++ (md5Hex base).take 10
  else
    "idx_" ++ natStr idx

/-- The body of the `load_cases` loop for one parsed line (source lines
69-94): normalize `raw` (a string is re-parsed as JSON, substituting
`{"script": []}` only on a `JSONDecodeError`; `None` and non-dict values are
replaced by the placeholder), then `raw.get("script", [])` is forced to a
list, `c["raw"]` and, when `c.get("id")` is falsy, `c["id"]` are assigned.
`raw.get` on a non-dict (a string `raw` that re-parses to a non-object)
raises `AttributeError`, modelled as `Except.error`. -/
def loadCaseLine (c : List (String × Json)) (idx : Nat) :
    Except String (List (String × Json)) :=
  let raw1 : Json :=
    match getKv c "raw" with
    | some (.str s) =>
        match parseJson s with
        | some v => v
        | none => .obj [("script", .arr [])]
    | some .null => .obj [("script", .arr [])]
    | none => .obj [("script", .arr [])]
    | some (.obj kvs) => .obj kvs
    | some _ => .obj [("script", .arr [])]
  match raw1 with
  | .obj rkvs =>
    let script : Json :=
      match (getKv rkvs "script").getD (.arr []) with
      | .arr xs => .arr xs
      | _ => .arr []
    let rkvs' := setKv rkvs "script" script
    let c1 := setKv c "raw" (.obj rkvs')
    let c2 :=
      if pyTruthy ((getKv c1 "id").getD .null) then c1
      else setKv c1 "id" (.str (make_case_id c1 idx))
    .ok c2
  | _ => .error "AttributeError"

/-- The `load_cases` line loop (source lines 65-94): lines are enumerated
(blank lines are skipped but still counted), each stripped line is parsed
with `json.loads` (failure is a raised `JSONDecodeError`), `c.get` on a
non-dict top-level value raises `AttributeError`, and each normalized case
is appended in order. -/
def processLines (lines : List String) (idx : Nat) :
    Except String (List (List (String × Json))) :=
  match lines with
  | [] => .ok []
  | line :: rest =>
    let l := pyStrip line
    if l = "" then processLines rest (idx + 1)
    else
      match parseJson l with
      | none => .error "JSONDecodeError"
      | some (Json.obj kvs) =>
        match loadCaseLine kvs idx with
        | .error e => .error e
        | .ok c =>
          match processLines rest (idx + 1) with
          | .error e => .error e
          | .ok cs => .ok (c :: cs)
      | some _ => .error "AttributeError"

/-- Split text into lines at the newline character, as iterating a Python
text file does (the trailing segment after a final newline is the empty
string, which is blank and therefore skipped by the loader). -/
def splitLinesAux (cs : List Char) (acc : List Char) : List String :=
  match cs with
  | [] => [⟨acc.reverse⟩]
  | c :: rest =>
    if c = '\n' then ⟨acc.reverse⟩ :: splitLinesAux rest []
    else splitLinesAux rest (c :: acc)

/-- The lines of the loader's input text. -/
def splitLines (s : String) : List String := splitLinesAux s.data []

/-- `load_cases` (source lines 61-95), applied to the text content read from
the path; an `Except.error` is an exception propagating to the caller. -/
def load_cases (content : String) : Except String (List (List (String × Json))) :=
  processLines (splitLines content) 0

/-- `load_tutorial` (source lines 97-105).  The file system at the path is
passed as `file`: `none` when `os.path.exists` is false (the loader returns
`[]`), otherwise the file's text content.  Content that does not parse is a
raised `json.JSONDecodeError`; a parsed value that is not an object with a
`steps` list is a raised `ValueError`. -/
def load_tutorial (file : Option String) : Except String (List Json) :=
  match file with
  | none => .ok []
  | some content =>
    match parseJson content with
    | none => .error "JSONDecodeError"
    | some (Json.obj kvs) =>
      match getKv kvs "steps" with
      | some (.arr steps) => .ok steps
      | _ => .error "tutorial.json must be a JSON object with a top-level steps list."
    | some _ => .error "tutorial.json must be a JSON object with a top-level steps list."

/-- A row of the external `annotations` table: the columns written by the
source (lines 134-139). -/
structure Row where
  case_id : String
  annotator : String
  payload : Json
  updated_at : String

/-- The key the `annotations` table is keyed by. -/
def rowKey (r : Row) : String × String := (r.case_id, r.annotator)

/-- Modelled from the spec: the store backend is the external Supabase
service (`sb.table("annotations").upsert(row).execute()`, source line 140);
its table definition is not in the repository.  Per spec §4.2 strategy (b)
the table is "keyed by (case_id, annotator) with an upsert primitive
provided by the backing service": the upsert replaces every row whose key
matches and inserts at the end otherwise. -/
def tableUpsert (t : List Row) (r : Row) : List Row :=
  if t.any (fun r' => decide (rowKey r' = rowKey r)) then
    t.map (fun r' => if rowKey r' = rowKey r then r else r')
  else t ++ [r]

/-- `upsert_annotation` (source lines 132-140): builds the row from
`case_id`, `annotator`, the payload `record` and the write time `now`
(`datetime.utcnow().isoformat()`, passed in as a parameter), and upserts it
into the table. -/
def upsert_annotation (t : List Row) (case_id : String) (a : String)
    (record : Json) (now : String) : List Row :=
  tableUpsert t ⟨case_id, a, record, now⟩

/-- A Python dict built by inserting pairs left to right: position of the
first occurrence of a key, value of the last. -/
def dictOf (pairs : List (String × Json)) : List (String × Json) :=
  pairs.foldl (fun d kv => setKv d kv.1 kv.2) []

/-- `load_existing_annotations` (source lines 120-130): the rows of the
table filtered by annotator (`.eq("annotator", annotator)`), collected into
the dict `{r["case_id"]: r["payload"]}`. -/
def load_existing_annotations (t : List Row) (a : String) :
    List (String × Json) :=
  dictOf ((t.filter (fun r => decide (r.annotator = a))).map
    (fun r => (r.case_id, r.payload)))

/-- A sequence of store writes (case_id, annotator, record, now) applied in
order to a table, each through ` upsert_annotation`. -/
def applyUpserts (t : List Row) (ops : List (String × String × Json × String)) :
    List Row :=
  ops.foldl (fun t' op => upsert_annotation t' op.1 op.2.1 op.2.2.1 op.2.2.2) t

/-- Observation helper: the `id` field of each loaded case, in order
(the loader always assigns a string id). -/
def caseIds (cs : List (List (String × Json))) : List String :=
  cs.map (fun c =>
    match getKv c "id" with
    | some (.str s) => s
    | _ => "")

/-- Observation helper: the normalized conversation `c["raw"]["script"]` of
a loaded case. -/
def caseConversation (c : List (String × Json)) : List Json :=
  match getKv c "raw" with
  | some (.obj rkvs) =>
    match getKv rkvs "script" with
    | some (.arr xs) => xs
    | _ => []
  | _ => []

/-- Whether an optional parse result is a JSON object. -/
def isObjOpt : Option Json → Bool
  | some (Json.obj _) => true
  | _ => false

/-- Whether `pre` is a prefix of `s` (Python `s.startswith(pre)`). -/
def strStartsWith (s pre : String) : Bool := pre.data.isPrefixOf s.data

/-- The numeric value of a most-significant-first decimal digit list
(inverse of `natDigitsL`, used to prove it injective). -/
def digitsVal (l : List Char) : Nat :=
  l.foldl (fun a c => 10 * a + (c.toNat - 48)) 0

/-- The metadata-degeneracy condition exactly as claim C10 words it, for
comparison with what `make_case_id` actually tests: scenario id absent or
`None`, relationship type missing or `"Unknown"`, and both `name1` and
`name2` equal to the empty string. -/
def claimDegenerateMeta (c : List (String × Json)) : Bool :=
  let meta : List (String × Json) :=
    match getKv c "meta" with
    | some (.obj kvs) => kvs
    | _ => []
  let scenOk :=
    match getKv meta "scenario" with
    | some (.obj skvs) =>
      match getKv skvs "id" with
      | none => true
      | some .null => true
      | some _ => false
    | _ => true
  let relOk :=
    match getKv meta "relationship_type" with
    | none => true
    | some (.str s) => s = "Unknown"
    | some _ => false
  let n1Ok :=
    match getKv meta "name1" with
    | none => true
    | some (.str s) => s = ""
    | some _ => false
  let n2Ok :=
    match getKv meta "name2" with
    | none => true
    | some (.str s) => s = ""
    | some _ => false
  scenOk && relOk && n1Ok && n2Ok

/-- One source line whose metadata is fully populated (so the hash path is
taken) — used twice to exhibit an id collision. -/
def dupLine : String :=
  "\x7b\x22meta\x22:\x7b\x22relationship_type\x22:\x22Friends\x22,\x22name1\x22:\x22A\x22,\x22name2\x22:\x22B\x22\x7d\x7d"

/-- Two identical metadata-bearing lines. -/
def dupContent : String := dupLine ++ "\n" ++ dupLine

/-- The single source line of the spec's concrete scenario (§8). -/
def c5content : String :=
  "\x7b\x22meta\x22:\x7b\x22relationship_type\x22:\x22Parent-Child\x22,\x22name1\x22:\x22Amy\x22,\x22name2\x22:\x22Ben\x22\x7d,\x22raw\x22:\x7b\x22script\x22:[\x7b\x22speaker\x22:\x22Amy\x22,\x22text\x22:\x22Clean your room.\x22\x7d]\x7d\x7d"

/-- The metadata of the concrete scenario's case. -/
def c5meta : List (String × Json) :=
  [("relationship_type", Json.str "Parent-Child"),
   ("name1", Json.str "Amy"), ("name2", Json.str "Ben")]

/-- The loaded case the concrete scenario must produce. -/
def c5case : List (String × Json) :=
  [("meta", Json.obj c5meta),
   ("raw", Json.obj [("script", Json.arr
      [Json.obj [("speaker", Json.str "Amy"), ("text", Json.str "Clean your room.")]])]),
   ("id", Json.str "case_8ffbe9ae41")]

/-- The annotation record of the concrete scenario (`winner="Amy"`,
`power_sources=["ROLE"]`), in the shape built at source lines 558-571. -/
def c5record : Json :=
  Json.obj [
    ("case_id", Json.str "case_8ffbe9ae41"),
    ("annotator", Json.str "Harley"),
    ("timestamp", Json.str "2026-01-01T00:00:00"),
    ("winner", Json.str "Amy"),
    ("power_sources", Json.arr [Json.str "ROLE"]),
    ("meta_snapshot", Json.obj [
      ("relationship_type", Json.str "Parent-Child"),
      ("role1", Json.null), ("role2", Json.null),
      ("name1", Json.str "Amy"), ("name2", Json.str "Ben")])]

/-- One line whose `raw` is the string `"42"`: a JSON-encoded string whose
content is valid JSON but not an object. -/
def c6line : String := "\x7b\x22meta\x22: \x7b\x7d, \x22raw\x22: \x2242\x22\x7d"

/-- A record whose `meta.name2` is a single space: every field the claim
inspects is non-degenerate by the claim's reading (`name2` is not the empty
string), yet the stripped composite key is exactly `"None|Unknown||"`. -/
def c10case : List (String × Json) := [("meta", Json.obj [("name2", Json.str " ")])]

/-- A record with a truthy `name1`, used to witness the hash path. -/
def c10hashCase : List (String × Json) := [("meta", Json.obj [("name1", Json.str "Z")])]

theorem getKv_setKv_self (d : List (String × Json)) (k : String) (v : Json) :
    getKv (setKv d k v) k = some v := by
  induction d with
  | nil => simp [setKv, getKv]
  | cons kv rest ih =>
    obtain ⟨k', v'⟩ := kv
    by_cases h : k' = k <;> simp [setKv, getKv, h, ih]

theorem getKv_setKv_ne (d : List (String × Json)) (k k' : String) (v : Json)
    (h : k' ≠ k) : getKv (setKv d k' v) k = getKv d k := by
  induction d with
  | nil => simp [setKv, getKv, h]
  | cons kv rest ih =>
    obtain ⟨k₀, v₀⟩ := kv
    by_cases h0 : k₀ = k'
    · subst h0
      simp [setKv, getKv, h, Ne.symm h]
    · by_cases h1 : k₀ = k <;> simp [setKv, getKv, h0, h1, ih, Ne.symm h]

theorem getKv_dictOf_aux (pairs : List (String × Json)) (c : String) (v : Json)
    (d : List (String × Json))
    (hall : ∀ p ∈ pairs, p.1 = c → p.2 = v)
    (hd : (∃ p ∈ pairs, p.1 = c) ∨ getKv d c = some v) :
    getKv (pairs.foldl (fun d' kv => setKv d' kv.1 kv.2) d) c = some v := by
  induction pairs generalizing d with
  | nil =>
    simp only [List.foldl_nil]
    rcases hd with ⟨p, hp, _⟩ | hd
    · cases hp
    · exact hd
  | cons p rest ih =>
    obtain ⟨k, w⟩ := p
    simp only [List.foldl_cons]
    by_cases hk : k = c
    · subst hk
      have hw : w = v := hall (k, w) (List.mem_cons_self _ _) rfl
      subst hw
      refine ih (setKv d k w)
        (fun q hq hqc => hall q (List.mem_cons_of_mem _ hq) hqc) (Or.inr ?_)
      exact getKv_setKv_self d k w
    · refine ih (setKv d k w)
        (fun q hq hqc => hall q (List.mem_cons_of_mem _ hq) hqc) ?_
      rcases hd with ⟨q, hq, hqc⟩ | hd
      · rcases List.mem_cons.mp hq with h | h
        · rw [h] at hqc
          exact absurd hqc hk
        · exact Or.inl ⟨q, h, hqc⟩
      · exact Or.inr (by rw [getKv_setKv_ne d c k w hk]; exact hd)

/-- Every pair of the dict built by `load_existing_annotations` whose key is
`c` carries value `v`, and one such pair exists, so the lookup returns `v`. -/
theorem getKv_dictOf (pairs : List (String × Json)) (c : String) (v : Json)
    (hall : ∀ p ∈ pairs, p.1 = c → p.2 = v)
    (hex : ∃ p ∈ pairs, p.1 = c) :
    getKv (dictOf pairs) c = some v :=
  getKv_dictOf_aux pairs c v [] hall (Or.inl hex)

theorem mem_tableUpsert_self (t : List Row) (r : Row) : r ∈ tableUpsert t r := by
  unfold tableUpsert
  by_cases h : t.any (fun r' => decide (rowKey r' = rowKey r))
  · rw [if_pos h]
    obtain ⟨x, hx, hkey⟩ := List.any_eq_true.mp h
    exact List.mem_map.mpr ⟨x, hx, by simp [of_decide_eq_true hkey]⟩
  · rw [if_neg h]
    exact List.mem_append_right t (by simp)

theorem mem_tableUpsert_key (t : List Row) (r r' : Row)
    (hmem : r' ∈ tableUpsert t r) (hkey : rowKey r' = rowKey r) : r' = r := by
  unfold tableUpsert at hmem
  by_cases h : t.any (fun x => decide (rowKey x = rowKey r))
  · rw [if_pos h] at hmem
    obtain ⟨x, _, heq⟩ := List.mem_map.mp hmem
    by_cases hxk : rowKey x = rowKey r
    · rw [if_pos hxk] at heq
      exact heq.symm
    · rw [if_neg hxk] at heq
      exact absurd (heq ▸ hkey) hxk
  · rw [if_neg h] at hmem
    rcases List.mem_append.mp hmem with hx | hr
    · rw [List.any_eq_true] at h
      push_neg at h
      have := h r' hx
      simp only [ne_eq, decide_eq_true_eq] at this
      exact absurd hkey this
    · simpa using hr

/-- Payload read back right after one upsert: the write is visible. -/
theorem getKv_load_upsert (t : List Row) (c a : String) (r : Json) (ts : String) :
    getKv ( load_existing_annotations ( upsert_annotation t c a r ts) a) c = some r := by
  unfold load_existing_annotations upsert_annotation
  apply getKv_dictOf
  · intro p hp hpc
    obtain ⟨x, hx, hpx⟩ := List.mem_map.mp hp
    have hxf := List.mem_filter.mp hx
    have hxa : x.annotator = a := of_decide_eq_true hxf.2
    have hxmem : x ∈ tableUpsert t ⟨c, a, r, ts⟩ := hxf.1
    have hxkey : rowKey x = rowKey ⟨c, a, r, ts⟩ := by
      have hc : x.case_id = c := by rw [← hpx] at hpc; exact hpc
      simp [rowKey, hc, hxa]
    have := mem_tableUpsert_key t ⟨c, a, r, ts⟩ x hxmem hxkey
    rw [← hpx, this]
  · refine ⟨(c, r), List.mem_map.mpr ⟨⟨c, a, r, ts⟩, ?_, rfl⟩, rfl⟩
    exact List.mem_filter.mpr ⟨mem_tableUpsert_self t _, by simp⟩

theorem rowKey_tableUpsert_replace (t : List Row) (r : Row) :
    (t.map (fun x => if rowKey x = rowKey r then r else x)).map rowKey = t.map rowKey := by
  rw [List.map_map]
  apply List.map_congr_left
  intro x _
  by_cases hx : rowKey x = rowKey r
  · simp [Function.comp, hx]
  · simp [Function.comp, hx]

theorem nodup_keys_tableUpsert (t : List Row) (r : Row)
    (h : (t.map rowKey).Nodup) : ((tableUpsert t r).map rowKey).Nodup := by
  unfold tableUpsert
  by_cases hany : t.any (fun r' => decide (rowKey r' = rowKey r))
  · rw [if_pos hany, rowKey_tableUpsert_replace]
    exact h
  · rw [if_neg hany, List.map_append, List.nodup_append]
    refine ⟨h, by simp, ?_⟩
    intro k hk hk2
    simp only [List.map_cons, List.map_nil, List.mem_singleton] at hk2
    obtain ⟨x, hx, hxk⟩ := List.mem_map.mp hk
    rw [List.any_eq_true] at hany
    push_neg at hany
    have := hany x hx
    simp only [ne_eq, decide_eq_true_eq] at this
    exact this (by rw [hxk, hk2])

theorem nodup_keys_applyUpserts (t : List Row)
    (ops : List (String × String × Json × String))
    (h : (t.map rowKey).Nodup) :
    ((applyUpserts t ops).map rowKey).Nodup := by
  induction ops generalizing t with
  | nil => exact h
  | cons op rest ih =>
    show ((applyUpserts ( upsert_annotation t op.1 op.2.1 op.2.2.1 op.2.2.2) rest).map rowKey).Nodup
    exact ih _ (nodup_keys_tableUpsert _ _ h)

theorem filter_key_eq_of_nodup (t : List Row) (r : Row)
    (h : (t.map rowKey).Nodup) (hmem : r ∈ t) :
    t.filter (fun x => decide (rowKey x = rowKey r)) = [r] := by
  induction t with
  | nil => cases hmem
  | cons x xs ih =>
    rw [List.map_cons, List.nodup_cons] at h
    rcases List.mem_cons.mp hmem with heq | hxs
    · subst heq
      rw [List.filter_cons_of_pos (by simp)]
      have : xs.filter (fun x => decide (rowKey x = rowKey r)) = [] := by
        rw [List.filter_eq_nil_iff]
        intro y hy
        simp only [decide_eq_true_eq]
        intro hk
        exact h.1 (List.mem_map.mpr ⟨y, hy, hk⟩)
      rw [this]
    · have hne : rowKey x ≠ rowKey r := by
        intro he
        exact h.1 (he ▸ List.mem_map.mpr ⟨r, hxs, rfl⟩)
      rw [List.filter_cons_of_neg (by simp [hne])]
      exact ih h.2 hxs

theorem filter_annotator_replace (t : List Row) (r : Row) (Y : String)
    (h : r.annotator ≠ Y) :
    (t.map (fun x => if rowKey x = rowKey r then r else x)).filter
        (fun x => decide (x.annotator = Y)) =
      t.filter (fun x => decide (x.annotator = Y)) := by
  induction t with
  | nil => rfl
  | cons x xs ih =>
    rw [List.map_cons]
    by_cases hx : rowKey x = rowKey r
    · have hxa : x.annotator = r.annotator := congrArg Prod.snd hx
      rw [if_pos hx, List.filter_cons_of_neg (by simp [h]),
        List.filter_cons_of_neg (by simp [hxa, h])]
      exact ih
    · rw [if_neg hx]
      by_cases hy : x.annotator = Y
      · rw [List.filter_cons_of_pos (by simp [hy]),
          List.filter_cons_of_pos (by simp [hy]), ih]
      · rw [List.filter_cons_of_neg (by simp [hy]),
          List.filter_cons_of_neg (by simp [hy])]
        exact ih

theorem digitChar_toNat (m : Nat) (h : m < 10) : (digitChar m).toNat = 48 + m := by
  interval_cases m <;> rfl

theorem digitsVal_append (l : List Char) (c : Char) :
    digitsVal (l ++ [c]) = 10 * digitsVal l + (c.toNat - 48) := by
  unfold digitsVal
  rw [List.foldl_append]
  rfl

theorem digitsVal_natDigitsAux (fuel : Nat) : ∀ n, n < fuel →
    digitsVal (natDigitsAux fuel n) = n := by
  induction fuel with
  | zero => omega
  | succ fuel ih =>
    intro n hn
    rw [natDigitsAux]
    by_cases h10 : n < 10
    · rw [if_pos h10]
      unfold digitsVal
      simp only [List.foldl_cons, List.foldl_nil]
      rw [digitChar_toNat n h10]
      omega
    · rw [if_neg h10, digitsVal_append]
      have hdiv : n / 10 < n := Nat.div_lt_self (by omega) (by omega)
      rw [ih (n / 10) (by omega)]
      rw [digitChar_toNat (n % 10) (Nat.mod_lt _ (by omega))]
      omega

theorem natDigitsL_inj (m n : Nat) (h : natDigitsL m = natDigitsL n) : m = n := by
  have hm := digitsVal_natDigitsAux (m + 1) m (by omega)
  have hn := digitsVal_natDigitsAux (n + 1) n (by omega)
  unfold natDigitsL at h
  rw [← hm, h, hn]

theorem natStr_inj (m n : Nat) (h : natStr m = natStr n) : m = n :=
  natDigitsL_inj m n (String.ext_iff.mp h)

theorem mem_dropWhile_of_mem (p : Char → Bool) (l : List Char) (ch : Char)
    (h : ch ∈ l) (hp : p ch = false) : ch ∈ l.dropWhile p := by
  induction l with
  | nil => cases h
  | cons x xs ih =>
    rw [List.dropWhile_cons]
    by_cases hx : p x = true
    · rw [if_pos hx]
      rcases List.mem_cons.mp h with he | hxs
      · rw [he] at hp
        rw [hp] at hx
        cases hx
      · exact ih hxs
    · rw [if_neg hx]
      exact h

theorem mem_pyStripL (l : List Char) (ch : Char) (h : ch ∈ l)
    (hs : isPySpace ch = false) : ch ∈ pyStripL l := by
  unfold pyStripL
  rw [List.mem_reverse]
  apply mem_dropWhile_of_mem _ _ _ _ hs
  rw [List.mem_reverse]
  exact mem_dropWhile_of_mem _ _ _ h hs

theorem pyStrip_ne_empty_of_pipe (s : String) (h : '|' ∈ s.data) :
    pyStrip s ≠ "" := by
  intro he
  have hmem : '|' ∈ pyStripL s.data := mem_pyStripL _ _ h (by decide)
  have hdata : pyStripL s.data = [] := String.ext_iff.mp he
  rw [hdata] at hmem
  cases hmem

theorem pipe_mem_compose (a b c d : String) :
    '|' ∈ (a ++ "|" ++ b ++ "|" ++ c ++ "|" ++ d).data := by
  have hp : '|' ∈ ("|" : String).data := by decide
  simp only [String.data_append, List.mem_append]
  tauto

theorem caseBase_ne_empty (c : List (String × Json)) : caseBase c ≠ "" :=
  pyStrip_ne_empty_of_pipe _ (pipe_mem_compose _ _ _ _)

theorem case_ne_idx (h d : String) : "case_" ++ h ≠ "idx_" ++ d := by
  intro he
  have hdata := String.ext_iff.mp he
  rw [String.data_append, String.data_append,
    show ("case_" : String).data = ['c', 'a', 's', 'e', '_'] from rfl,
    show ("idx_" : String).data = ['i', 'd', 'x', '_'] from rfl] at hdata
  simp at hdata

theorem processLines_error_of_bad (lines : List String) : ∀ idx : Nat,
    (∃ line ∈ lines, pyStrip line ≠ "" ∧
      isObjOpt (parseJson (pyStrip line)) = false) →
    ∃ e, processLines lines idx = Except.error e := by
  induction lines with
  | nil =>
    intro idx hbad
    obtain ⟨l, hl, _⟩ := hbad
    cases hl
  | cons line rest ih =>
    intro idx hbad
    obtain ⟨l, hl, hne, hno⟩ := hbad
    by_cases hblank : pyStrip line = ""
    · have hlrest : l ∈ rest := by
        rcases List.mem_cons.mp hl with he | hr
        · rw [he] at hne
          exact absurd hblank hne
        · exact hr
      obtain ⟨e, he⟩ := ih (idx + 1) ⟨l, hlrest, hne, hno⟩
      refine ⟨e, ?_⟩
      simp only [processLines]
      rw [if_pos hblank]
      exact he
    · cases hp : parseJson (pyStrip line) with
      | none =>
        refine ⟨"JSONDecodeError", ?_⟩
        simp only [processLines]
        rw [if_neg hblank, hp]
      | some j =>
        cases j with
        | obj kvs =>
          have hlrest : l ∈ rest := by
            rcases List.mem_cons.mp hl with he | hr
            · rw [he] at hno
              rw [hp] at hno
              cases hno
            · exact hr
          obtain ⟨e, he⟩ := ih (idx + 1) ⟨l, hlrest, hne, hno⟩
          cases hc : loadCaseLine kvs idx with
          | error e2 =>
            refine ⟨e2, ?_⟩
            simp only [processLines]
            rw [if_neg hblank, hp]
            simp only [hc]
          | ok c =>
            refine ⟨e, ?_⟩
            simp only [processLines]
            rw [if_neg hblank, hp]
            simp only [hc, he]
        | null =>
          exact ⟨"AttributeError", by simp only [processLines]; rw [if_neg hblank, hp]⟩
        | bool b =>
          exact ⟨"AttributeError", by simp only [processLines]; rw [if_neg hblank, hp]⟩
        | num n =>
          exact ⟨"AttributeError", by simp only [processLines]; rw [if_neg hblank, hp]⟩
        | str s =>
          exact ⟨"AttributeError", by simp only [processLines]; rw [if_neg hblank, hp]⟩
        | arr xs =>
          exact ⟨"AttributeError", by simp only [processLines]; rw [if_neg hblank, hp]⟩

set_option maxRecDepth 8192

theorem filter_key_unique (t : List Row) (r : Row) (k : String × String)
    (hk : rowKey r = k) (h : (t.map rowKey).Nodup) (hmem : r ∈ t) :
    t.filter (fun x => decide (rowKey x = k)) = [r] := by
  subst hk
  exact filter_key_eq_of_nodup t r h hmem

/-- C1: starting from the empty table, any sequence of upserts leaves at
most one row per (case_id, annotator) key; and on a duplicate-free table,
upserting the same record twice for (c, a) leaves exactly one row for that
key, with `list(a)[c] = r`. -/
theorem upsert_twice_single_entry :
    (∀ ops : List (String × String × Json × String),
        ((applyUpserts [] ops).map rowKey).Nodup) ∧
    (∀ (t : List Row) (c a : String) (r : Json) (ts1 ts2 : String),
        (t.map rowKey).Nodup →
        ((( upsert_annotation ( upsert_annotation t c a r ts1) c a r ts2).filter
            (fun row => decide (rowKey row = (c, a)))).length = 1 ∧
          getKv ( load_existing_annotations
            ( upsert_annotation ( upsert_annotation t c a r ts1) c a r ts2) a) c
            = some r)) := by
  constructor
  · intro ops
    exact nodup_keys_applyUpserts [] ops (by simp)
  · intro t c a r ts1 ts2 hnd
    refine ⟨?_, getKv_load_upsert _ _ _ _ _⟩
    have hnd2 : ((( upsert_annotation ( upsert_annotation t c a r ts1) c a r ts2)).map
        rowKey).Nodup :=
      nodup_keys_tableUpsert _ _ (nodup_keys_tableUpsert _ _ hnd)
    have hmem : (⟨c, a, r, ts2⟩ : Row) ∈
        upsert_annotation ( upsert_annotation t c a r ts1) c a r ts2 :=
      mem_tableUpsert_self _ _
    rw [filter_key_unique _ ⟨c, a, r, ts2⟩ (c, a) rfl hnd2 hmem]
    rfl

theorem upsert_twice_single_entry_witness :
    (([] : List Row).map rowKey).Nodup ∧
    ((( upsert_annotation ( upsert_annotation [] "c0" "Ann" (Json.str "v") "t1")
          "c0" "Ann" (Json.str "v") "t2").filter
        (fun row => decide (rowKey row = ("c0", "Ann")))).length = 1 ∧
      getKv ( load_existing_annotations
        ( upsert_annotation ( upsert_annotation [] "c0" "Ann" (Json.str "v") "t1")
          "c0" "Ann" (Json.str "v") "t2") "Ann") "c0" = some (Json.str "v")) :=
  ⟨by simp, upsert_twice_single_entry.2 [] "c0" "Ann" (Json.str "v") "t1" "t2" (by simp)⟩

/-- C2: upserting r1 then r2 under the same (annotator, case_id) key leaves
`list(a)[c] = r2` (full replacement, no merge), and any single completed
upsert is visible to a subsequent `list(a)`. -/
theorem upsert_overwrites_and_visible :
    (∀ (t : List Row) (c a : String) (r1 r2 : Json) (ts1 ts2 : String),
        getKv ( load_existing_annotations
          ( upsert_annotation ( upsert_annotation t c a r1 ts1) c a r2 ts2) a) c
          = some r2) ∧
    (∀ (t : List Row) (c a : String) (r : Json) (ts : String),
        getKv ( load_existing_annotations ( upsert_annotation t c a r ts) a) c
          = some r) :=
  ⟨fun _t c a _r1 r2 _ts1 ts2 => getKv_load_upsert _ c a r2 ts2,
   fun t c a r ts => getKv_load_upsert t c a r ts⟩

/-- C8: an upsert under annotator X leaves `list(Y)` unchanged for `Y ≠ X` —
annotator partitions are isolated. -/
theorem upsert_isolated_across_annotators (t : List Row) (c X Y : String)
    (r : Json) (ts : String) (h : X ≠ Y) :
    load_existing_annotations ( upsert_annotation t c X r ts) Y =
      load_existing_annotations t Y := by
  unfold load_existing_annotations upsert_annotation tableUpsert
  by_cases hany : t.any (fun r' => decide (rowKey r' = rowKey (⟨c, X, r, ts⟩ : Row)))
  · rw [if_pos hany, filter_annotator_replace t _ Y h]
  · rw [if_neg hany, List.filter_append]
    have hf : ([(⟨c, X, r, ts⟩ : Row)].filter (fun x => decide (x.annotator = Y))) = [] := by
      simp [h]
    rw [hf, List.append_nil]

theorem upsert_isolated_across_annotators_witness :
    ("X" : String) ≠ "Y" ∧
    load_existing_annotations ( upsert_annotation [] "c0" "X" (Json.num 1) "t0") "Y" =
      load_existing_annotations ([] : List Row) "Y" :=
  ⟨by decide,
   upsert_isolated_across_annotators [] "c0" "X" "Y" (Json.num 1) "t0" (by decide)⟩

/-- C4: loading is deterministic — equal source content yields equal id
sequences, equal normalized conversations, and equal results outright
(`load_cases` is a pure function of the content). -/
theorem load_cases_deterministic (s t : String) (h : s = t) :
    (load_cases s).map caseIds = (load_cases t).map caseIds ∧
    (load_cases s).map (List.map caseConversation) =
      (load_cases t).map (List.map caseConversation) ∧
    load_cases s = load_cases t := by
  subst h
  exact ⟨rfl, rfl, rfl⟩

theorem load_cases_deterministic_witness :
    ("\x7b\x22meta\x22:\x7b\x7d\x7d" : String) = "\x7b\x22meta\x22:\x7b\x7d\x7d" ∧
    ((load_cases "\x7b\x22meta\x22:\x7b\x7d\x7d").map caseIds =
        (load_cases "\x7b\x22meta\x22:\x7b\x7d\x7d").map caseIds ∧
      (load_cases "\x7b\x22meta\x22:\x7b\x7d\x7d").map (List.map caseConversation) =
        (load_cases "\x7b\x22meta\x22:\x7b\x7d\x7d").map (List.map caseConversation) ∧
      load_cases "\x7b\x22meta\x22:\x7b\x7d\x7d" = load_cases "\x7b\x22meta\x22:\x7b\x7d\x7d") :=
  ⟨rfl, load_cases_deterministic _ _ rfl⟩

/-- C7: if any line of the source strips to a non-blank string that does not
parse as a top-level JSON object, `load_cases` raises — no partial case list
is returned. -/
theorem load_cases_error_on_unparsable_line (content : String)
    (h : ∃ line ∈ splitLines content, pyStrip line ≠ "" ∧
        isObjOpt (parseJson (pyStrip line)) = false) :
    ∃ e, load_cases content = Except.error e :=
  processLines_error_of_bad (splitLines content) 0 h

theorem load_cases_error_on_unparsable_line_witness :
    (∃ line ∈ splitLines "nope", pyStrip line ≠ "" ∧
        isObjOpt (parseJson (pyStrip line)) = false) ∧
    ∃ e, load_cases "nope" = Except.error e :=
  ⟨by decide, load_cases_error_on_unparsable_line "nope" (by decide)⟩

/-- C3 counterexample: two identical fully-populated metadata lines load to
two cases with the same hash id — loaded ids are not pairwise distinct. -/
theorem load_cases_ids_collide :
    (load_cases dupContent).map caseIds =
      Except.ok ["case_a878fea5bb", "case_a878fea5bb"] ∧
    ¬ (["case_a878fea5bb", "case_a878fea5bb"] : List String).Nodup :=
  ⟨rfl, by decide⟩

/-- C3 (amended): hash ids repeat for identical metadata, but ids produced
by the index-based fallback never collide within one load — distinct line
indices give distinct `idx_` ids. -/
theorem fallback_ids_distinct (c c' : List (String × Json)) (i j : Nat)
    (hij : i ≠ j)
    (hi : make_case_id c i = "idx_" ++ natStr i)
    (hj : make_case_id c' j = "idx_" ++ natStr j) :
    make_case_id c i ≠ make_case_id c' j := by
  rw [hi, hj]
  intro he
  apply hij
  apply natStr_inj
  have hd := String.ext_iff.mp he
  rw [String.data_append, String.data_append] at hd
  exact String.ext_iff.mpr (List.append_cancel_left hd)

theorem fallback_ids_distinct_witness :
    ((0 : Nat) ≠ 1 ∧ make_case_id [] 0 = "idx_" ++ natStr 0 ∧
      make_case_id [] 1 = "idx_" ++ natStr 1) ∧
    make_case_id [] 0 ≠ make_case_id [] 1 :=
  ⟨⟨by decide, rfl, rfl⟩, fallback_ids_distinct [] [] 0 1 (by decide) rfl rfl⟩

/-- C5: the spec's concrete scenario — loading the single-line source yields
exactly one case, with a `case_`-prefixed id, a one-turn conversation and
`meta.name1 = "Amy"`; upserting the `winner="Amy"`, `power_sources=["ROLE"]`
record and listing the annotator returns exactly that record. -/
theorem concrete_scenario_roundtrip :
    load_cases c5content = Except.ok [c5case] ∧
    (caseIds [c5case]).all (fun i => strStartsWith i "case_") = true ∧
    (caseConversation c5case).length = 1 ∧
    getKv c5meta "name1" = some (Json.str "Amy") ∧
    load_existing_annotations
      ( upsert_annotation [] "case_8ffbe9ae41" "Harley" c5record "2026-01-01T00:00:00")
      "Harley" = [("case_8ffbe9ae41", c5record)] :=
  ⟨rfl, rfl, rfl, rfl, rfl⟩

/-- C6 (code bug): a `raw` that is a string containing valid non-object
JSON (here `"42"`) is re-parsed to the number 42, and the subsequent
`raw.get("script", [])` raises `AttributeError` — the whole load fails
instead of producing a case with an empty conversation. -/
theorem load_cases_fails_on_json_string_raw :
    parseJson "42" = some (Json.num 42) ∧
    load_cases c6line = Except.error "AttributeError" :=
  ⟨rfl, rfl⟩

/-- C9 counterexample: tutorial content that exists but does not parse is a
raised error, not an empty step list. -/
theorem load_tutorial_not_empty_on_bad_content :
    load_tutorial (some "not json") = Except.error "JSONDecodeError" ∧
    (load_tutorial (some "not json")).isOk = false :=
  ⟨rfl, rfl⟩

/-- C9 (amended): a missing tutorial file yields the empty step list, but
existing content that fails to parse raises an error to the caller. -/
theorem load_tutorial_missing_empty_unreadable_error :
    load_tutorial none = Except.ok [] ∧
    (∀ s, parseJson s = none → ∃ e, load_tutorial (some s) = Except.error e) := by
  refine ⟨rfl, fun s hs => ⟨"JSONDecodeError", ?_⟩⟩
  simp only [load_tutorial, hs]

theorem load_tutorial_missing_empty_unreadable_error_witness :
    parseJson "steps" = none ∧ ∃ e, load_tutorial (some "steps") = Except.error e :=
  ⟨rfl, load_tutorial_missing_empty_unreadable_error.2 "steps" rfl⟩

/-- C10 counterexample: with `meta = {"name2": " "}` the claim's degeneracy
condition is false (`name2` is not the empty string), yet `make_case_id`
returns the index fallback, because the composite key strips to exactly
`"None|Unknown||"`. -/
theorem make_case_id_fallback_on_space_name :
    make_case_id c10case 0 = "idx_0" ∧ claimDegenerateMeta c10case = false :=
  ⟨rfl, rfl⟩

/-- C10 (amended): the composite key is never empty (it always contains a
pipe), the index fallback is taken exactly when the stripped composite key
equals `"None|Unknown||"`, and otherwise the id is `case_` plus the first
ten hex characters of the MD5 of the composite key. -/
theorem make_case_id_characterized (c : List (String × Json)) (idx : Nat) :
    caseBase c ≠ "" ∧
    (make_case_id c idx = "idx_" ++ natStr idx ↔ caseBase c = "None|Unknown||") ∧
    (caseBase c ≠ "None|Unknown||" →
      make_case_id c idx = "case_" ++ (md5Hex (caseBase c)).take 10) := by
  refine ⟨caseBase_ne_empty c, ⟨?_, ?_⟩, ?_⟩
  · intro he
    by_contra hno
    simp only [make_case_id] at he
    rw [if_pos ⟨caseBase_ne_empty c, hno⟩] at he
    exact case_ne_idx _ _ he
  · intro hdeg
    simp only [make_case_id]
    rw [if_neg (by simp [hdeg])]
  · intro hno
    simp only [make_case_id]
    rw [if_pos ⟨caseBase_ne_empty c, hno⟩]

theorem make_case_id_characterized_witness :
    caseBase c10hashCase ≠ "None|Unknown||" ∧
    make_case_id c10hashCase 7 = "case_" ++ (md5Hex (caseBase c10hashCase)).take 10 :=
  ⟨by decide, (make_case_id_characterized c10hashCase 7).2.2 (by decide)⟩
